import Mathlib

/-!
Verification development for the o11yutil traffic generator and trace
debug processor. Definitions are shallow embeddings of the Go source:
the client package (jitter, ping loop, instrumentation middleware), the
debugprocessor package (span registry, ancestry walk, console renderer)
and the worker fan-out in cmd/zombie/main.go. Real-valued float64
arithmetic is embedded as rational arithmetic; the injected random draw
of the jitter function is an explicit argument.
-/

set_option autoImplicit false

namespace O11y

/-! ## Jitter and the ping-loop delay defaults (client package) -/

/-- Embedding of the package-level default base delay,
`defaultDelay = 10000 * time.Millisecond`, in nanoseconds. -/
def defaultDelay : ℚ := 10000 * 1000000

/-- Embedding of the package-level default jitter fraction
`defaultJitter = 0.2`. -/
def defaultJitter : ℚ := 2/10

/-- Embedding of the `Jitter` function:
`jittered = time.Duration(val * (1 + (jitter * (rand.Float64()*2 - 1))))`.
The value `rnd` is the injected draw of `rand.Float64()`, which lies in
`[0, 1)`; float64 arithmetic is embedded as exact rational arithmetic.
Note the source applies no clamping of any kind to the product. -/
def Jitter (val jitter rnd : ℚ) : ℚ :=
  val * (1 + (jitter * (rnd * 2 - 1)))

/-- Embedding of the delay fallback at the top of `pinger.Ping`:
`delay := float64(t.Duration()); if delay == 0.0 { delay = float64(defaultDelay) }`.
The configured base delay is taken in nanoseconds. -/
def effectiveDelay (configured : ℚ) : ℚ :=
  if configured = 0 then defaultDelay else configured

/-- Embedding of the jitter fallback in `pinger.Ping`:
`jitter := float64(t.Jitter); if jitter == 0.0 { jitter = float64(defaultJitter) }`. -/
def effectiveJitter (configured : ℚ) : ℚ :=
  if configured = 0 then defaultJitter else configured

/-! ## The trace debug processor (debugprocessor package)

A span record carries exactly the data `OnStart` reads from a
`sdktrace.ReadWriteSpan`: its own span identifier, the span identifier
of its parent span context, its display name, the instrumentation
library (scope) name, and its attribute list. Span identifiers are
embedded as naturals; the all-zero invalid `trace.SpanID` of a root
span is embedded as `0`. -/

structure SpanData where
  spanID : Nat
  parentSpanID : Nat
  name : String
  scopeName : String
  attrs : List (String × String)
  deriving DecidableEq, Repr

/-- The `spans` field of the processor, a Go map from span identifier to
span record, embedded as an association list where the most recent
binding for a key shadows older ones. -/
abbrev Registry := List (Nat × SpanData)

/-- Lookup `p.spans[k]` in the embedded map: the first binding for `k`
wins, matching overwrite-on-assignment semantics of the Go map. -/
def Registry.find : Registry → Nat → Option SpanData
  | [], _ => none
  | (id, s) :: rest, k => if k = id then some s else Registry.find rest k

/-- Map assignment `p.spans[id] = s`: the new binding is prepended, so
`Registry.find` sees it first, exactly as a Go map overwrite would. -/
def Registry.insert (reg : Registry) (id : Nat) (s : SpanData) : Registry :=
  (id, s) :: reg

/-- Number of bindings in the registry list; an upper bound on the
number of distinct keys. -/
def Registry.size (reg : Registry) : Nat := List.length reg

/-- Embedding of `Processor.applyIndentation`: starting from span `s`,
repeatedly look the parent span identifier up in the registry,
incrementing the level for every resolved parent and stopping at the
first unresolved one. The Go loop carries no bound; the `fuel`
argument makes the recursion structural, and the stabilization lemma
below shows the result no longer depends on `fuel` once the walk has
completed within it. -/
def applyIndentation (reg : Registry) : Nat → SpanData → Nat
  | 0, _ => 0
  | fuel + 1, curr =>
    match reg.find curr.parentSpanID with
    | some next => applyIndentation reg fuel next + 1
    | none => 0

/-- Whether the ancestry walk from `s` reaches an unresolved parent
within `fuel` lookups, i.e. whether the Go loop would have exited by
then. -/
def walkStops (reg : Registry) : Nat → SpanData → Bool
  | 0, _ => false
  | fuel + 1, curr =>
    match reg.find curr.parentSpanID with
    | some next => walkStops reg fuel next
    | none => true

/-- The resolvable parent chain of `s`: the span records found by the
successive successful registry lookups of the walk, within `fuel`. -/
def parentChain (reg : Registry) : Nat → SpanData → List SpanData
  | 0, _ => []
  | fuel + 1, curr =>
    match reg.find curr.parentSpanID with
    | some next => next :: parentChain reg fuel next
    | none => []

/-- The keys under which the walk resolved each parent, within `fuel`.
Used to express acyclicity of the reachable parent links. -/
def resolvedKeys (reg : Registry) : Nat → SpanData → List Nat
  | 0, _ => []
  | fuel + 1, curr =>
    match reg.find curr.parentSpanID with
    | some next => curr.parentSpanID :: resolvedKeys reg fuel next
    | none => []

/-- Embedding of `strings.Repeat s n`. -/
def stringsRepeat (s : String) : Nat → String
  | 0 => ""
  | n + 1 => s ++ stringsRepeat s n

/-- Embedding of `kvToString`: each attribute pair rendered as
`key=value` and the renderings joined with a comma and a space. -/
def kvToString (kv : List (String × String)) : String :=
  String.intercalate (", ") (kv.map (fun pair => pair.1 ++ "=" ++ pair.2))

/-- The state of a `Processor`: the indent string, the span registry,
and the lines written so far to the output writer (one list element per
`Fprintf` call, without the terminating newline). -/
structure Processor where
  indent : String
  spans : Registry
  out : List String

/-- Embedding of `Processor.OnStart`: record the span in the registry,
compute the ancestry depth with `applyIndentation`, and append one
output line `indent-repeated-depth-times scope::name\x7battrs\x7d`.
The fuel passed to the walk is one more than the registry size, which
the theorems below show is enough for every acyclic ancestry chain. -/
def OnStart (p : Processor) (s : SpanData) : Processor :=
  let spans := p.spans.insert s.spanID s
  let lvl := applyIndentation spans (spans.size + 1) s
  let indent := stringsRepeat p.indent lvl
  let line := indent ++ s.scopeName ++ "::" ++ s.name ++ "\x7b" ++ kvToString s.attrs ++ "\x7d"
  { p with spans := spans, out := p.out ++ [line] }

/-! ## Instrumentation middleware (client package)

A round trip either succeeds at the transport level with an HTTP status
code, or fails with a transport error carrying a message; Go errors are
plain values, so the error path is an ordinary value, not an exception,
and deferred statements always run. -/

inductive RTResult where
  | ok (statusCode : Nat)
  | err (msg : String)
  deriving DecidableEq, Repr

/-- The request data the middleware reads: only the HTTP method is used
as a metric label. -/
structure Request where
  method : String
  deriving DecidableEq, Repr

/-- One operation on the process-wide metric registry, as performed by
the three middleware layers: gauge increment and decrement on the
in-flight gauge, counter increment on the request counter with its
code and method labels, and a histogram observation of elapsed
seconds. All carry the per-target label. -/
inductive MetricOp where
  | gaugeInc (target : String)
  | gaugeDec (target : String)
  | counterInc (target : String) (code : Nat) (method : String)
  | observeDuration (target : String) (seconds : ℚ)
  deriving DecidableEq, Repr

/-- An `http.RoundTripper` embedded with its metric side effects made
explicit: a call returns the transport result together with the trace
of registry operations it performed, in order. -/
abbrev RoundTripper := Request → RTResult × List MetricOp

/-- Embedding of `InstrumentRoundTripperInFlight`: increment the gauge,
delegate, and decrement via `defer` after the delegate returns — on the
success and on the error path alike, since the error is a value. -/
def InstrumentRoundTripperInFlight (target : String) (next : RoundTripper) : RoundTripper :=
  fun r =>
    let res := next r
    (res.1, MetricOp.gaugeInc target :: res.2 ++ [MetricOp.gaugeDec target])

/-- Embedding of `InstrumentRoundTripperCounter`: delegate, and only
when the returned error is nil increment the per-(target, code, method)
counter. -/
def InstrumentRoundTripperCounter (target : String) (next : RoundTripper) : RoundTripper :=
  fun r =>
    let res := next r
    match res.1 with
    | RTResult.ok code => (res.1, res.2 ++ [MetricOp.counterInc target code r.method])
    | RTResult.err _ => res

/-- Embedding of `InstrumentRoundTripperDuration`: delegate, and only
when the returned error is nil observe the elapsed wall time. The
elapsed seconds of the call are injected as an argument, since wall
time is outside the embedding. -/
def InstrumentRoundTripperDuration (target : String) (elapsed : ℚ) (next : RoundTripper) : RoundTripper :=
  fun r =>
    let res := next r
    match res.1 with
    | RTResult.ok _ => (res.1, res.2 ++ [MetricOp.observeDuration target elapsed])
    | RTResult.err _ => res

/-- A bare transport (the wrapped `http.DefaultTransport`): it produces
a transport result and touches no metric. -/
def pureTransport (f : Request → RTResult) : RoundTripper :=
  fun r => (f r, [])

/-- The middleware stack as composed in `NewInstrumentedPinger`:
in-flight gauge outermost, then completion counter, then duration
histogram, around the base transport. -/
def instrumentedStack (target : String) (elapsed : ℚ) (base : RoundTripper) : RoundTripper :=
  InstrumentRoundTripperInFlight target
    (InstrumentRoundTripperCounter target
      (InstrumentRoundTripperDuration target elapsed base))

/-- Net effect of a trace of registry operations on the in-flight
gauge: plus one per increment, minus one per decrement. -/
def netGauge : List MetricOp → Int
  | [] => 0
  | MetricOp.gaugeInc _ :: rest => netGauge rest + 1
  | MetricOp.gaugeDec _ :: rest => netGauge rest - 1
  | _ :: rest => netGauge rest

/-- Whether an operation is an increment of the in-flight gauge. -/
def MetricOp.isGaugeInc : MetricOp → Bool
  | MetricOp.gaugeInc _ => true
  | _ => false

/-- Whether an operation is a decrement of the in-flight gauge. -/
def MetricOp.isGaugeDec : MetricOp → Bool
  | MetricOp.gaugeDec _ => true
  | _ => false

/-- Whether an operation increments the completion counter. -/
def MetricOp.isCounterInc : MetricOp → Bool
  | MetricOp.counterInc _ _ _ => true
  | _ => false

/-- Whether an operation records a duration observation. -/
def MetricOp.isObserve : MetricOp → Bool
  | MetricOp.observeDuration _ _ => true
  | _ => false

/-- The concatenated operation trace of one round tripper called on a
list of requests, one completed call per list element. -/
def callTrace (rt : RoundTripper) : List Request → List MetricOp
  | [] => []
  | r :: rest => (rt r).2 ++ callTrace rt rest

/-! ## The ping loop (pinger.Ping) and the worker fan-out (cmd/zombie) -/

/-- What one iteration of the `pinger.Ping` loop does after the jittered
sleep, as a function of the transport outcome of `p.client.Do`: which
error the span records, whether the span status is set to error,
whether the response body is drained and closed, whether the span is
ended, whether control flows back to the top of the loop, and which
errors are handed to any caller or channel (the loop body returns
nothing and sends nothing, so this list is empty on both branches). -/
structure IterationOutcome where
  spanRecordedError : Option String
  spanStatusError : Bool
  bodyDrained : Bool
  spanEnded : Bool
  continuesLoop : Bool
  propagated : List String
  deriving DecidableEq, Repr

/-- Embedding of the body of the `for` loop in `pinger.Ping` (the part
following `p.client.Do`): on a transport error the span records the
error and its status becomes error; on success the body is read and
closed and the status attributes are set; in both branches the span is
ended manually and the loop continues with no propagation. -/
def pingIteration : RTResult → IterationOutcome
  | RTResult.err msg =>
    { spanRecordedError := some msg
      spanStatusError := true
      bodyDrained := false
      spanEnded := true
      continuesLoop := true
      propagated := [] }
  | RTResult.ok _ =>
    { spanRecordedError := none
      spanStatusError := false
      bodyDrained := true
      spanEnded := true
      continuesLoop := true
      propagated := [] }

/-- The first `n` iterations of the unbounded ping loop, driven by the
schedule of transport outcomes: the loop body contains no `break` or
`return`, so every scheduled iteration runs. -/
def pingLoop : List RTResult → List IterationOutcome
  | [] => []
  | r :: rest => pingIteration r :: pingLoop rest

/-- Embedding of the error-channel consumer in `cmd/zombie/main.go`:
`for e := range errors { logger.Log("error", e); os.Exit(1) }`. The
process exits as soon as any error arrives on the channel. -/
def mainErrorLoopExits (errs : List String) : Bool :=
  !errs.isEmpty

/-- The target fields the fan-out in `main` reads: display name, URL
and configured worker count (a Go `int`, hence possibly negative). -/
structure TargetConf where
  name : String
  url : String
  workers : Int
  deriving DecidableEq, Repr

/-- Embedding of the per-target display-name fallback in `main`:
`ns := t.Name; if ns == "" { ns = t.Url }`. -/
def displayName (t : TargetConf) : String :=
  if t.name = "" then t.url else t.name

/-- Embedding of the per-target fan-out in `main`:
`workers := t.Workers; if workers <= 0 { workers = 1 }` followed by
`for i := 0; i < workers; i++` spawning one pinger goroutine per index.
The result lists the worker indices spawned for the target. -/
def spawnWorkers (t : TargetConf) : List Nat :=
  let workers := t.workers
  let workers := if workers ≤ 0 then 1 else workers
  List.range workers.toNat

/-! ## Theorems -/

/-- C1: the claim states that for every base value and every jitter
fraction greater than 1, the output of `Jitter` is clamped to zero
rather than negative. The source applies no clamp: at base 1000 ns,
fraction 2 and random draw `rand.Float64() = 0` (so the spread factor
is -1), the function returns the negative duration -1000 ns, directly
contradicting the clamp the specification mandates. -/
theorem jitter_unclamped_goes_negative :
    Jitter 1000 2 0 = -1000 ∧ Jitter 1000 2 0 < 0 := by
  constructor <;> norm_num [Jitter]

/-- C7: for base ≥ 0, fraction between 0 and 1 and any draw of
`rand.Float64()` in [0, 1] (spread factor in [-1, 1]), the jitter
output lies in the band [base*(1-fraction), base*(1+fraction)] and is
never negative. -/
theorem jitter_bounds (val jitter rnd : ℚ)
    (hval : 0 ≤ val) (hj0 : 0 ≤ jitter) (hj1 : jitter ≤ 1)
    (hr0 : 0 ≤ rnd) (hr1 : rnd ≤ 1) :
    val * (1 - jitter) ≤ Jitter val jitter rnd ∧
    Jitter val jitter rnd ≤ val * (1 + jitter) ∧
    0 ≤ Jitter val jitter rnd := by
  unfold Jitter
  refine ⟨?_, ?_, ?_⟩ <;>
    nlinarith [mul_nonneg (mul_nonneg hval hj0) hr0,
      mul_nonneg (mul_nonneg hval hj0) (by linarith : (0:ℚ) ≤ 1 - rnd),
      mul_nonneg hval (by linarith : (0:ℚ) ≤ 1 - jitter)]

/-- Witness for C7 at base 10, fraction 1/2, draw 1/4. -/
theorem jitter_bounds_witness :
    (10:ℚ) * (1 - 1/2) ≤ Jitter 10 (1/2) (1/4) ∧
    Jitter 10 (1/2) (1/4) ≤ 10 * (1 + 1/2) ∧
    0 ≤ Jitter 10 (1/2) (1/4) :=
  jitter_bounds 10 (1/2) (1/4) (by norm_num) (by norm_num) (by norm_num)
    (by norm_num) (by norm_num)

/-- C8 counterexample: the claim states that a zero or negative
configured base delay falls back to the 10 s default and a zero or
negative jitter falls back to 0.2, but the source only tests equality
with zero: a configured delay of -5 s and a configured jitter of -1/2
pass through unchanged instead of being replaced by the defaults. -/
theorem effective_defaults_negative_counterexample :
    effectiveDelay (-5000000000) = -5000000000 ∧
    effectiveDelay (-5000000000) ≠ defaultDelay ∧
    effectiveJitter (-1/2) = -1/2 ∧
    effectiveJitter (-1/2) ≠ defaultJitter := by
  refine ⟨?_, ?_, ?_, ?_⟩ <;>
    norm_num [effectiveDelay, effectiveJitter, defaultDelay, defaultJitter]

/-- C8 amended: only an exactly-zero configured base delay falls back
to the engine-wide 10 s default, and only an exactly-zero configured
jitter falls back to the 0.2 default; any nonzero configured value,
negative values included, is used as-is. -/
theorem effective_defaults_zero_only (d j : ℚ) :
    effectiveDelay 0 = defaultDelay ∧ effectiveJitter 0 = defaultJitter ∧
    (d ≠ 0 → effectiveDelay d = d) ∧ (j ≠ 0 → effectiveJitter j = j) := by
  refine ⟨rfl, rfl, fun hd => ?_, fun hj => ?_⟩
  · simp [effectiveDelay, hd]
  · simp [effectiveJitter, hj]

/-- Witness for the amended C8 at configured delay -7 and jitter -3/10. -/
theorem effective_defaults_zero_only_witness :
    effectiveDelay 0 = defaultDelay ∧ effectiveJitter 0 = defaultJitter ∧
    effectiveDelay (-7) = -7 ∧ effectiveJitter (-3/10) = -3/10 := by
  obtain ⟨h1, h2, h3, h4⟩ := effective_defaults_zero_only (-7) (-3/10)
  exact ⟨h1, h2, h3 (by norm_num), h4 (by norm_num)⟩

/-- C9: a target with a zero or negative configured worker count gets
exactly one worker loop, and a target with a positive count gets
exactly that many. -/
theorem spawnWorkers_count (t : TargetConf) :
    (t.workers ≤ 0 → (spawnWorkers t).length = 1) ∧
    (0 < t.workers → (spawnWorkers t).length = t.workers.toNat) := by
  constructor
  · intro h
    simp [spawnWorkers, if_pos h]
  · intro h
    simp [spawnWorkers, if_neg (show ¬ t.workers ≤ 0 by omega)]

/-- Splitting the net gauge effect over a concatenation of traces. -/
theorem netGauge_append (l1 l2 : List MetricOp) :
    netGauge (l1 ++ l2) = netGauge l1 + netGauge l2 := by
  induction l1 with
  | nil => simp [netGauge]
  | cons op rest ih => cases op <;> simp [netGauge, ih] <;> ring

/-- The operation trace of one call through the full middleware stack
over a bare transport: the in-flight gauge increment first, then the
inner observations (present only on transport success), then the gauge
decrement. -/
theorem stack_call_ops (target : String) (elapsed : ℚ)
    (f : Request → RTResult) (r : Request) :
    (instrumentedStack target elapsed (pureTransport f) r).2 =
      MetricOp.gaugeInc target ::
        (match f r with
          | RTResult.ok code =>
            [MetricOp.observeDuration target elapsed,
              MetricOp.counterInc target code r.method]
          | RTResult.err _ => []) ++ [MetricOp.gaugeDec target] := by
  cases h : f r <;>
    simp [instrumentedStack, InstrumentRoundTripperInFlight,
      InstrumentRoundTripperCounter, InstrumentRoundTripperDuration,
      pureTransport, h]

/-- C5: every call through the in-flight middleware stack increments
the per-target gauge exactly once and decrements it exactly once, on
the success and on the error path alike, so the net gauge change of any
sequence of completed calls is zero. -/
theorem inFlight_gauge_balanced (target : String) (elapsed : ℚ)
    (f : Request → RTResult) (r : Request) (reqs : List Request) :
    List.countP (fun op => MetricOp.isGaugeInc op)
        (instrumentedStack target elapsed (pureTransport f) r).2 = 1 ∧
    List.countP (fun op => MetricOp.isGaugeDec op)
        (instrumentedStack target elapsed (pureTransport f) r).2 = 1 ∧
    ((instrumentedStack target elapsed (pureTransport f)) r).2.head? =
      some (MetricOp.gaugeInc target) ∧
    ((instrumentedStack target elapsed (pureTransport f)) r).2.getLast? =
      some (MetricOp.gaugeDec target) ∧
    netGauge (instrumentedStack target elapsed (pureTransport f) r).2 = 0 ∧
    netGauge (callTrace (instrumentedStack target elapsed (pureTransport f)) reqs) = 0 := by
  have hsingle : ∀ q : Request,
      netGauge (instrumentedStack target elapsed (pureTransport f) q).2 = 0 := by
    intro q
    rw [stack_call_ops]
    cases f q <;> simp [netGauge, netGauge_append]
  refine ⟨?_, ?_, ?_, ?_, hsingle r, ?_⟩
  · rw [stack_call_ops]
    cases f r <;> simp [MetricOp.isGaugeInc, MetricOp.isGaugeDec]
  · rw [stack_call_ops]
    cases f r <;> simp [MetricOp.isGaugeInc, MetricOp.isGaugeDec]
  · rw [stack_call_ops]
    cases f r <;> simp
  · rw [stack_call_ops]
    cases f r <;> simp
  · induction reqs with
    | nil => simp [callTrace, netGauge]
    | cons q rest ih => simp [callTrace, netGauge_append, hsingle q, ih]

/-- C6: the completion counter and the duration histogram record only
on transport-level success; over a transport that always returns an
error, any number of calls through the full stack performs no counter
increment and no duration observation. -/
theorem counter_histogram_zero_on_transport_error (target : String) (elapsed : ℚ)
    (msgf : Request → String) (reqs : List Request) :
    List.countP (fun op => MetricOp.isCounterInc op)
        (callTrace (instrumentedStack target elapsed
          (pureTransport (fun r => RTResult.err (msgf r)))) reqs) = 0 ∧
    List.countP (fun op => MetricOp.isObserve op)
        (callTrace (instrumentedStack target elapsed
          (pureTransport (fun r => RTResult.err (msgf r)))) reqs) = 0 := by
  induction reqs with
  | nil => simp [callTrace]
  | cons q rest ih =>
    obtain ⟨ih1, ih2⟩ := ih
    constructor
    · simp only [callTrace, List.countP_append, ih1, stack_call_ops]
      simp [MetricOp.isCounterInc]
    · simp only [callTrace, List.countP_append, ih2, stack_call_ops]
      simp [MetricOp.isObserve]

/-- C3: the ping loop absorbs transport errors locally. On a transport
error the iteration records the error on its span and sets the span
status to error; the loop body propagates nothing in any branch and
always flows back to the top of the loop, so every scheduled iteration
runs and the error-channel consumer in main, which would exit the
process on the first received error, never fires. -/
theorem ping_transport_errors_absorbed (results : List RTResult) (msg : String) :
    (pingLoop results).length = results.length ∧
    (pingLoop results).map IterationOutcome.continuesLoop = results.map (fun _ => true) ∧
    ((pingLoop results).map IterationOutcome.propagated).flatten = [] ∧
    mainErrorLoopExits (((pingLoop results).map IterationOutcome.propagated).flatten) = false ∧
    (pingIteration (RTResult.err msg)).spanRecordedError = some msg ∧
    (pingIteration (RTResult.err msg)).spanStatusError = true ∧
    (pingIteration (RTResult.err msg)).continuesLoop = true ∧
    (pingIteration (RTResult.err msg)).spanEnded = true := by
  have hjoin : ∀ l : List RTResult,
      ((pingLoop l).map IterationOutcome.propagated).flatten = [] := by
    intro l
    induction l with
    | nil => simp [pingLoop]
    | cons r rest ih => cases r <;> simp [pingLoop, pingIteration, ih]
  have hlen : ∀ l : List RTResult, (pingLoop l).length = l.length := by
    intro l
    induction l with
    | nil => rfl
    | cons r rest ih => simp [pingLoop, ih]
  have hcont : ∀ l : List RTResult,
      (pingLoop l).map IterationOutcome.continuesLoop = l.map (fun _ => true) := by
    intro l
    induction l with
    | nil => rfl
    | cons r rest ih => cases r <;> simp [pingLoop, pingIteration, ih]
  refine ⟨hlen results, hcont results, hjoin results, ?_, rfl, rfl, rfl, rfl⟩
  rw [hjoin results]
  rfl

/-- The indentation level computed by the walk is the number of parent
records it resolves. -/
theorem applyIndentation_eq_chain_length (reg : Registry) (fuel : Nat) (s : SpanData) :
    applyIndentation reg fuel s = (parentChain reg fuel s).length := by
  induction fuel generalizing s with
  | zero => rfl
  | succ n ih =>
    cases h : reg.find s.parentSpanID <;>
      simp [applyIndentation, parentChain, h, ih]

/-- Once the walk has reached an unresolved parent within the given
fuel, extra fuel does not change the computed level. -/
theorem applyIndentation_stable (reg : Registry) (fuel : Nat) (s : SpanData)
    (h : walkStops reg fuel s = true) (extra : Nat) :
    applyIndentation reg (fuel + extra) s = applyIndentation reg fuel s := by
  induction fuel generalizing s with
  | zero => simp [walkStops] at h
  | succ n ih =>
    rw [Nat.add_right_comm]
    cases hf : reg.find s.parentSpanID with
    | none => simp [applyIndentation, hf]
    | some next =>
      rw [walkStops, hf] at h
      simp [applyIndentation, hf, ih next h]

/-- A successful registry lookup means the key is bound in the
registry. -/
theorem find_some_key_mem (reg : Registry) (k : Nat) (v : SpanData)
    (h : reg.find k = some v) : k ∈ reg.map Prod.fst := by
  induction reg with
  | nil => simp [Registry.find] at h
  | cons kv rest ih =>
    obtain ⟨id, s⟩ := kv
    rw [Registry.find] at h
    by_cases hk : k = id
    · simp [hk]
    · rw [if_neg hk] at h
      simp [ih h]

/-- Every key the walk resolves is bound in the registry. -/
theorem resolvedKeys_subset (reg : Registry) (fuel : Nat) (s : SpanData) :
    ∀ k ∈ resolvedKeys reg fuel s, k ∈ reg.map Prod.fst := by
  induction fuel generalizing s with
  | zero => simp [resolvedKeys]
  | succ n ih =>
    intro k hk
    cases hf : reg.find s.parentSpanID with
    | none => rw [resolvedKeys, hf] at hk; simp at hk
    | some next =>
      rw [resolvedKeys, hf] at hk
      rcases List.mem_cons.mp hk with heq | hmem
      · exact heq ▸ find_some_key_mem reg s.parentSpanID next hf
      · exact ih next k hmem

/-- If the walk has not yet reached an unresolved parent, it resolved
one key per unit of fuel. -/
theorem resolvedKeys_length_of_not_stops (reg : Registry) (fuel : Nat) (s : SpanData)
    (h : walkStops reg fuel s = false) :
    (resolvedKeys reg fuel s).length = fuel := by
  induction fuel generalizing s with
  | zero => simp [resolvedKeys]
  | succ n ih =>
    cases hf : reg.find s.parentSpanID with
    | none => rw [walkStops, hf] at h; simp at h
    | some next =>
      rw [walkStops, hf] at h
      rw [resolvedKeys, hf]
      simp [ih next h]

/-- A duplicate-free list of naturals drawn from another list is no
longer than it. -/
theorem nodup_length_le (l keys : List Nat) (hnd : l.Nodup)
    (hsub : ∀ k ∈ l, k ∈ keys) : l.length ≤ keys.length :=
  calc l.length = l.toFinset.card := (List.toFinset_card_of_nodup hnd).symm
    _ ≤ keys.toFinset.card := by
        refine Finset.card_le_card ?_
        intro x hx
        exact List.mem_toFinset.mpr (hsub x (List.mem_toFinset.mp hx))
    _ ≤ keys.length := keys.toFinset_card_le

/-- Under acyclic reachable parent links, the walk reaches an
unresolved parent within one more step than the registry has bindings:
otherwise it would resolve more pairwise distinct keys than the
registry holds. -/
theorem walkStops_of_acyclic (reg : Registry) (s : SpanData)
    (h : (resolvedKeys reg (reg.size + 1) s).Nodup) :
    walkStops reg (reg.size + 1) s = true := by
  cases hval : walkStops reg (reg.size + 1) s with
  | true => rfl
  | false =>
    exfalso
    have hlen := resolvedKeys_length_of_not_stops reg (reg.size + 1) s hval
    have hle := nodup_length_le (resolvedKeys reg (reg.size + 1) s)
      (reg.map Prod.fst) h (resolvedKeys_subset reg (reg.size + 1) s)
    rw [hlen, List.length_map] at hle
    have : reg.size = reg.length := rfl
    omega

/-- C10: whenever the parent links reachable from a span are acyclic —
expressed as: the keys resolved by the walk, bounded by one more than
the registry size, are pairwise distinct — the ancestry walk of
`applyIndentation` terminates: its result is the same for every
sufficient fuel, and equals the length of the resolvable parent
chain. -/
theorem applyIndentation_terminates_acyclic (reg : Registry) (s : SpanData)
    (hacyc : (resolvedKeys reg (reg.size + 1) s).Nodup) :
    ∀ fuel, reg.size + 1 ≤ fuel →
      applyIndentation reg fuel s = (parentChain reg (reg.size + 1) s).length := by
  intro fuel hfuel
  obtain ⟨extra, hextra⟩ : ∃ e, fuel = (reg.size + 1) + e :=
    ⟨fuel - (reg.size + 1), by omega⟩
  subst hextra
  rw [applyIndentation_stable reg (reg.size + 1) s (walkStops_of_acyclic reg s hacyc) extra]
  exact applyIndentation_eq_chain_length reg (reg.size + 1) s

/-- Witness for C10: a two-entry registry holding a root span and its
child; the walk from the child at any fuel of at least three computes
the length of its resolvable chain. -/
theorem applyIndentation_terminates_acyclic_witness :
    applyIndentation
        [(1, ⟨1, 0, "a", "s", []⟩), (2, ⟨2, 1, "b", "s", []⟩)] 7 ⟨2, 1, "b", "s", []⟩ =
      (parentChain
        [(1, ⟨1, 0, "a", "s", []⟩), (2, ⟨2, 1, "b", "s", []⟩)] 3 ⟨2, 1, "b", "s", []⟩).length :=
  applyIndentation_terminates_acyclic
    [(1, ⟨1, 0, "a", "s", []⟩), (2, ⟨2, 1, "b", "s", []⟩)] ⟨2, 1, "b", "s", []⟩
    (by decide) 7 (by decide)

/-- C4: when the parent identifier of a freshly registered span does
not resolve in the registry, the walk treats the span as a root: the
emitted line carries indentation depth zero. -/
theorem onStart_missing_parent_depth_zero (p : Processor) (x : SpanData)
    (h : (p.spans.insert x.spanID x).find x.parentSpanID = none) :
    (OnStart p x).out =
      p.out ++ [stringsRepeat p.indent 0 ++ x.scopeName ++ "::" ++ x.name ++
        "\x7b" ++ kvToString x.attrs ++ "\x7d"] := by
  simp [OnStart, applyIndentation, h, stringsRepeat]

/-- Witness for C4: a span whose parent identifier 9 was never
registered renders with no indentation. -/
theorem onStart_missing_parent_depth_zero_witness :
    (OnStart ⟨"  ", [], []⟩ ⟨5, 9, "x", "s", [("k", "v")]⟩).out =
      [] ++ [stringsRepeat ("  ") 0 ++ "s" ++ "::" ++ "x" ++
        "\x7b" ++ kvToString [("k", "v")] ++ "\x7d"] :=
  onStart_missing_parent_depth_zero ⟨"  ", [], []⟩ ⟨5, 9, "x", "s", [("k", "v")]⟩ rfl

/-- C2: three spans A, B, C with A a root, B a child of A and C a child
of B, registered in that order on a fresh processor, render as three
lines at ancestry depths 0, 1 and 2 respectively, each formatted as the
scope name, two colons, the span name and the attribute list in
braces, prefixed by the indent string repeated depth times. -/
theorem onStart_ancestry_depths (ind : String) (A B C : SpanData)
    (hA0 : A.spanID ≠ 0) (hB0 : B.spanID ≠ 0) (hC0 : C.spanID ≠ 0)
    (hAB : A.spanID ≠ B.spanID) (hAC : A.spanID ≠ C.spanID) (hBC : B.spanID ≠ C.spanID)
    (hpa : A.parentSpanID = 0) (hpb : B.parentSpanID = A.spanID)
    (hpc : C.parentSpanID = B.spanID) :
    (OnStart (OnStart (OnStart ⟨ind, [], []⟩ A) B) C).out =
      [stringsRepeat ind 0 ++ A.scopeName ++ "::" ++ A.name ++
         "\x7b" ++ kvToString A.attrs ++ "\x7d",
       stringsRepeat ind 1 ++ B.scopeName ++ "::" ++ B.name ++
         "\x7b" ++ kvToString B.attrs ++ "\x7d",
       stringsRepeat ind 2 ++ C.scopeName ++ "::" ++ C.name ++
         "\x7b" ++ kvToString C.attrs ++ "\x7d"] := by
  obtain ⟨ai, ap, an, asc, aat⟩ := A
  obtain ⟨bi, bp, bn, bsc, bat⟩ := B
  obtain ⟨ci, cp, cn, csc, cat⟩ := C
  dsimp only at hpa hpb hpc hA0 hB0 hC0 hAB hAC hBC
  subst hpa hpb hpc
  simp [OnStart, Registry.insert, Registry.size, applyIndentation, Registry.find,
    Ne.symm hA0, Ne.symm hB0, Ne.symm hC0, hAB, hAC, hBC, stringsRepeat]

/-- Witness for C2 with concrete identifiers 1, 2, 3 and two-space
indentation. -/
theorem onStart_ancestry_depths_witness :
    (OnStart (OnStart (OnStart ⟨"  ", [], []⟩ ⟨1, 0, "a", "sa", [("k", "v")]⟩)
        ⟨2, 1, "b", "sb", []⟩) ⟨3, 2, "c", "sc", []⟩).out =
      [stringsRepeat ("  ") 0 ++ "sa" ++ "::" ++ "a" ++
         "\x7b" ++ kvToString [("k", "v")] ++ "\x7d",
       stringsRepeat ("  ") 1 ++ "sb" ++ "::" ++ "b" ++
         "\x7b" ++ kvToString [] ++ "\x7d",
       stringsRepeat ("  ") 2 ++ "sc" ++ "::" ++ "c" ++
         "\x7b" ++ kvToString [] ++ "\x7d"] :=
  onStart_ancestry_depths ("  ") ⟨1, 0, "a", "sa", [("k", "v")]⟩
    ⟨2, 1, "b", "sb", []⟩ ⟨3, 2, "c", "sc", []⟩
    (by decide) (by decide) (by decide) (by decide) (by decide) (by decide)
    rfl rfl rfl

/-- Witness for C9 at worker counts 0 and 3. -/
theorem spawnWorkers_count_witness :
    (spawnWorkers ⟨"a", "u", 0⟩).length = 1 ∧
    (spawnWorkers ⟨"a", "u", 3⟩).length = 3 := by
  refine ⟨(spawnWorkers_count ⟨"a", "u", 0⟩).1 (by decide), ?_⟩
  have h := (spawnWorkers_count ⟨"a", "u", 3⟩).2 (by decide)
  simpa using h

end O11y
